import Mathlib

/-!
# Verification of the ECS agent on-disk cache (`ecs-init/cache/cache.go`)

A shallow embedding of the cache package of `amazon-ecs-init`.  Strings and
file contents are modelled as `List Char` (Go strings / byte slices, with the
byte-for-byte comparisons of the source becoming list equality).  The injected
capabilities (HTTP getter, filesystem, instance metadata) are modelled by
explicit outcome parameters: each theorem quantifies over the possible results
of those external calls.
-/

namespace EcsCache

/-- Go `unicode.IsSpace` on the characters relevant to this code base
(the Latin-1 fast path of the Go implementation: `'\t'`, `'\n'`, `'\v'`,
`'\f'`, `'\r'`, `' '`, U+0085, U+00A0).  `strings.TrimSpace` trims exactly
these characters on ASCII/Latin-1 input. -/
def goIsSpace (c : Char) : Bool :=
  c = ' ' || c = '\t' || c = '\n' || c = Char.ofNat 11 || c = Char.ofNat 12 ||
  c = '\r' || c = Char.ofNat 133 || c = Char.ofNat 160

/-- Go `strings.TrimSpace`: remove leading and trailing whitespace. -/
def trimSpace (s : List Char) : List Char :=
  ((s.dropWhile goIsSpace).reverse.dropWhile goIsSpace).reverse

/-- The suffix of `s` after its last `'/'` (all of `s` when it has no `'/'`);
this is the "find the last element" step of Go `path/filepath.Base`. -/
def afterLastSlash (s : List Char) : List Char :=
  (s.reverse.takeWhile (fun c => c ≠ '/')).reverse

/-- The "strip trailing separators" step of Go `path/filepath.Base`. -/
def stripTrailingSlashes (path : List Char) : List Char :=
  (path.reverse.dropWhile (fun c => c = '/')).reverse

/-- Go `path/filepath.Base` on Unix (the `fileSystem.Base` capability):
empty path gives `"."`; otherwise strip trailing separators, keep everything
after the last `'/'`, and a path made only of separators gives `"/"`. -/
def base (path : List Char) : List Char :=
  if path = [] then ['.']
  else if afterLastSlash (stripTrailingSlashes path) = [] then ['/']
  else afterLastSlash (stripTrailingSlashes path)

/-- The prefix of `content` up to and including its first `'\n'`
(all of `content` when there is none): the data that Go
`bufio.Reader.ReadString('\n')` returns. -/
def takeThroughNewline : List Char → List Char
  | [] => []
  | c :: cs => if c = '\n' then [c] else c :: takeThroughNewline cs

/-- Go `bufio.Reader.ReadString('\n')` as used by `getDesiredImageFile`:
the call succeeds exactly when the content holds a `'\n'`, and then returns
the first line including the delimiter; otherwise it reports an error
(`io.EOF`) and the caller discards the partial data. -/
def readStringNewline (content : List Char) : Option (List Char) :=
  if '\n' ∈ content then some (takeThroughNewline content) else none

/-- Errors of the desired-image resolution path. -/
inductive LocatorError
  | openFailed          -- `fs.Open(config.DesiredImageLocatorFile())` failed
  | noNewline           -- `reader.ReadString('\n')` found no newline
deriving DecidableEq, Repr

/-- `getDesiredImageFile` from `cache.go`: open the locator file (`locator` is
`none` when the open fails, `some content` otherwise), read the first line up
to and including a newline, then return
`strings.TrimSpace(cacheDir ++ "/" ++ Base(line))`.  Note the source applies
`Base` to the raw line (trailing newline included) and `TrimSpace` to the
whole concatenated path. -/
def getDesiredImageFile (cacheDir : List Char) (locator : Option (List Char)) :
    Except LocatorError (List Char) :=
  match locator with
  | none => .error .openFailed
  | some content =>
    match readStringNewline content with
    | none => .error .noNewline
    | some line => .ok (trimSpace (cacheDir ++ '/' :: base line))

/-- The action `LoadDesiredAgent` takes after desired-image resolution:
either it propagates the resolution error, or it opens the resolved path. -/
inductive LoadAction
  | failed (e : LocatorError)
  | openPath (p : List Char)
deriving DecidableEq, Repr

/-- `LoadDesiredAgent` from `cache.go`: resolve the desired image file and
open it; a resolution error is returned without opening anything. -/
def loadDesiredAgent (cacheDir : List Char) (locator : Option (List Char)) :
    LoadAction :=
  match getDesiredImageFile cacheDir locator with
  | .error e => .failed e
  | .ok p => .openPath p

/-! ## Region resolution (`getRegion`) -/

/-- Modelled from the spec: `config.DefaultRegionName`, the configured default
region constant used as fallback when the metadata lookup fails (the `config`
package is outside this source file; the spec fixes only that it is a
constant). -/
def defaultRegionName : List Char := "us-east-1".toList

/-- The `Downloader` instance state relevant to region resolution: the
memoized `region` field (`[]` plays the Go `""` value, meaning "not yet resolved"). -/
structure Downloader where
  region : List Char
deriving DecidableEq, Repr

/-- `getRegion` from `cache.go`.  `metadataResult` is what
`d.metadata.Region()` would return if invoked (`Except.error ()` for a lookup
error).  Returns the region string, the updated instance, and whether the
metadata capability was actually invoked. -/
def getRegion (d : Downloader) (metadataResult : Except Unit (List Char)) :
    List Char × Downloader × Bool :=
  if d.region ≠ [] then (d.region, d, false)
  else
    let region := match metadataResult with
      | .ok r => r
      | .error _ => defaultRegionName
    (region, { d with region := region }, true)

/-! ## Remote URLs and fetches -/

/-- Modelled from the spec: `config.AgentRemoteTarball(region)`, the artifact
URL as a function of the resolved region (fixed naming convention; the
`config` package is outside this source file). -/
def agentRemoteTarball (region : List Char) : List Char :=
  "https://remote-store/".toList ++ region ++ "/ecs-agent.tar".toList

/-- Modelled from the spec: `config.AgentRemoteTarballMD5(region)`, the
checksum-manifest URL — the artifact URL with a fixed suffix. -/
def agentRemoteTarballMD5 (region : List Char) : List Char :=
  agentRemoteTarball region ++ ".md5".toList

/-- An HTTP response as the `httpGetter` capability delivers it: a status
code and the bytes of the body. -/
structure HTTPResponse where
  statusCode : Nat
  body : List Char
deriving DecidableEq, Repr

/-- Outcome of one `getter.Get` call: `Except.error ()` is a
network/transport error, `Except.ok resp` a delivered response (of any
status code). -/
def GetResult : Type := Except Unit HTTPResponse

/-- Errors of `DownloadAgent` and its helpers, one constructor per `return
err` site in the source. -/
inductive DLError
  | mkdirFailed                 -- `fs.MkdirAll(config.CacheDirectory(), ...)`
  | manifestTransport           -- `getter.Get` on the md5 manifest URL
  | manifestRead                -- `fs.ReadAll(resp.Body)` on the manifest
  | tarballTransport            -- `getter.Get` on the tarball URL
  | tarballStatus (code : Nat)  -- "unexpected response code %d"
  | tempFileFailed              -- `fs.TempFile(config.CacheDirectory(), ...)`
  | copyFailed                  -- `fs.Copy(tempFile, teeReader)`
  | md5Mismatch (url : List Char)  -- "mismatched md5sum while downloading %s"
  | renameFailed                -- `fs.Rename(tempFile.Name(), ...)`
deriving DecidableEq, Repr

/-- `getPublishedMd5Sum` from `cache.go`: fetch the manifest URL, read the
whole body, trim it.  The source inspects only the transport error and the
`ReadAll` error — it never looks at `resp.StatusCode`. -/
def getPublishedMd5Sum (md5Response : GetResult) (readAllOk : Bool) :
    Except DLError (List Char) :=
  match md5Response with
  | .error _ => .error .manifestTransport
  | .ok resp =>
    if readAllOk then .ok (trimSpace resp.body) else .error .manifestRead

/-- `getPublishedTarball` from `cache.go`: fetch the tarball URL; a transport
error propagates, a status code other than 200 (`http.StatusOK`) is the
"unexpected response code" error, otherwise the body stream is returned. -/
def getPublishedTarball (tarballResponse : GetResult) :
    Except DLError (List Char) :=
  match tarballResponse with
  | .error _ => .error .tarballTransport
  | .ok resp =>
    if resp.statusCode ≠ 200 then .error (.tarballStatus resp.statusCode)
    else .ok resp.body

/-! ## Filesystem state and `DownloadAgent` -/

/-- The on-disk cache as `DownloadAgent` touches it: the content (or absence)
of the canonical artifact file `config.AgentTarball()`, of the state marker
file `config.CacheState()`, and of the temporary download file of this attempt,
plus whether the cache directory exists. -/
structure FSState where
  cacheDirExists : Bool
  canonical : Option (List Char)
  cacheState : Option (List Char)
  temp : Option (List Char)
deriving DecidableEq, Repr

/-- The outcomes of the external calls a single `DownloadAgent` run makes:
the two HTTP fetches, the fallible filesystem operations, and the digest
function (`crypto/md5` followed by lowercase hex encoding via
`fmt.Sprintf("%x", ·)` — Go standard library, modelled abstractly as a
function of the streamed bytes). -/
structure DownloadEnv where
  md5Response : GetResult
  readAllOk : Bool
  tarballResponse : GetResult
  mkdirOk : Bool
  tempFileOk : Bool
  copyOk : Bool
  renameOk : Bool
  digest : List Char → List Char

/-- `DownloadAgent` from `cache.go`, for an instance whose resolved region is
`region`.  Returns the Go `error` result (`none` = nil) and the final
filesystem state.  The deferred cleanup removes the temp file exactly when
the local variable `err` is non-nil at function exit; the final
`return d.fs.Rename(...)` does not assign `err`, so a rename failure leaves
the temp file in place. -/
def downloadAgent (env : DownloadEnv) (region : List Char) (fs : FSState) :
    Option DLError × FSState :=
  if ¬ env.mkdirOk then (some .mkdirFailed, fs)
  else
    let fs := { fs with cacheDirExists := true }
    match getPublishedMd5Sum env.md5Response env.readAllOk with
    | .error e => (some e, fs)
    | .ok publishedMd5Sum =>
      match getPublishedTarball env.tarballResponse with
      | .error e => (some e, fs)
      | .ok body =>
        if ¬ env.tempFileOk then (some .tempFileFailed, fs)
        else
          -- `fs.TempFile` creates the (empty) temp file.
          let fs := { fs with temp := some [] }
          if ¬ env.copyOk then
            -- `err != nil` at exit: the deferred cleanup removes the temp file.
            (some .copyFailed, { fs with temp := none })
          else
            -- tee semantics: the bytes written to the temp file are the bytes hashed.
            let fs := { fs with temp := some body }
            let calculatedMd5SumString := env.digest body
            if publishedMd5Sum ≠ calculatedMd5SumString then
              (some (.md5Mismatch (agentRemoteTarball region)),
                { fs with temp := none })
            else
              if env.renameOk then
                (none, { fs with canonical := some body, temp := none })
              else
                -- `err` is still nil here: the deferred cleanup does not fire.
                (some .renameFailed, fs)

/-! ## Presence check, marker, loaders -/

/-- `fileNotEmpty` from `cache.go` over the outcome of `fs.Stat`:
`Except.error ()` is any stat error (missing file, permission denied),
`Except.ok n` a successful stat of a file of size `n` (Go `int64`). -/
def fileNotEmpty (statResult : Except Unit Int) : Bool :=
  match statResult with
  | .error _ => false
  | .ok size => size > 0

/-- `IsAgentCached` from `cache.go`: both the state marker file
(`config.CacheState()`) and the canonical artifact file
(`config.AgentTarball()`) must be non-empty. -/
def isAgentCached (cacheStateStat agentTarballStat : Except Unit Int) : Bool :=
  fileNotEmpty cacheStateStat && fileNotEmpty agentTarballStat

/-- The `fs.Stat` outcome that the modelled filesystem state yields for a
file: absent files stat with an error, present ones report their length. -/
def statOf (file : Option (List Char)) : Except Unit Int :=
  match file with
  | none => .error ()
  | some content => .ok content.length

/-- `orwPerm` from `cache.go` (0700, owner read/write/execute only). -/
def orwPerm : Nat := 0o700

/-- A `fs.WriteFile` call: target content and permission bits. -/
structure WriteCall where
  content : List Char
  perm : Nat
deriving DecidableEq, Repr

/-- The single write `RecordCachedAgent` performs on the state marker path:
the one byte `"1"` with permissions `orwPerm`. -/
def recordCachedAgentCall : WriteCall := ⟨['1'], orwPerm⟩

/-- `RecordCachedAgent` from `cache.go` on the modelled filesystem state
(assuming the write succeeds): the state marker now holds `"1"`. -/
def recordCachedAgent (fs : FSState) : FSState :=
  { fs with cacheState := some recordCachedAgentCall.content }

end EcsCache

namespace EcsCache

/-! ## Theorems about `DownloadAgent` -/

/-- C1: when the MD5 digest of the streamed bytes, hex-encoded, equals the
trimmed manifest body (and the fetches and filesystem operations succeed),
`DownloadAgent` returns no error and the final state has the canonical
artifact file holding exactly the streamed bytes, with the temp file renamed
away; the state marker is untouched. -/
theorem C1_download_success (env : DownloadEnv) (region : List Char)
    (fs : FSState) (manifest tarball : HTTPResponse)
    (hmk : env.mkdirOk = true)
    (hmd5 : env.md5Response = Except.ok manifest)
    (hread : env.readAllOk = true)
    (htar : env.tarballResponse = Except.ok tarball)
    (hstatus : tarball.statusCode = 200)
    (htmp : env.tempFileOk = true)
    (hcopy : env.copyOk = true)
    (hren : env.renameOk = true)
    (hmatch : env.digest tarball.body = trimSpace manifest.body) :
    downloadAgent env region fs =
      (none, { fs with cacheDirExists := true,
                       canonical := some tarball.body, temp := none }) := by
  simp [downloadAgent, getPublishedMd5Sum, getPublishedTarball,
        hmk, hmd5, hread, htar, hstatus, htmp, hcopy, hren, hmatch]

/-- C1 witness: a concrete successful download. -/
theorem C1_download_success_witness :
    downloadAgent
      ⟨Except.ok ⟨200, " abc \n".toList⟩, true, Except.ok ⟨200, "hello".toList⟩,
       true, true, true, true, fun _ => "abc".toList⟩
      defaultRegionName ⟨false, some "old".toList, none, none⟩ =
      (none, ⟨true, some "hello".toList, none, none⟩) := by
  have h := C1_download_success
    ⟨Except.ok ⟨200, " abc \n".toList⟩, true, Except.ok ⟨200, "hello".toList⟩,
     true, true, true, true, fun _ => "abc".toList⟩
    defaultRegionName ⟨false, some "old".toList, none, none⟩
    ⟨200, " abc \n".toList⟩ ⟨200, "hello".toList⟩
    rfl rfl rfl rfl rfl rfl rfl rfl (by decide)
  simpa using h

/-- C2: when the computed digest differs from the trimmed manifest body (and
everything up to the comparison succeeds), `DownloadAgent` returns the
mismatch error carrying the artifact URL, the temp file is removed by the
deferred cleanup, and the canonical artifact and state marker are exactly
what they were before. -/
theorem C2_download_mismatch (env : DownloadEnv) (region : List Char)
    (fs : FSState) (manifest tarball : HTTPResponse)
    (hmk : env.mkdirOk = true)
    (hmd5 : env.md5Response = Except.ok manifest)
    (hread : env.readAllOk = true)
    (htar : env.tarballResponse = Except.ok tarball)
    (hstatus : tarball.statusCode = 200)
    (htmp : env.tempFileOk = true)
    (hcopy : env.copyOk = true)
    (hmismatch : trimSpace manifest.body ≠ env.digest tarball.body) :
    downloadAgent env region fs =
      (some (DLError.md5Mismatch (agentRemoteTarball region)),
       { fs with cacheDirExists := true, temp := none }) := by
  simp [downloadAgent, getPublishedMd5Sum, getPublishedTarball,
        hmk, hmd5, hread, htar, hstatus, htmp, hcopy, hmismatch]

/-- C2 witness: a concrete mismatched download against a pre-existing
canonical artifact, which survives unchanged while the temp file is gone. -/
theorem C2_download_mismatch_witness :
    downloadAgent
      ⟨Except.ok ⟨200, "abc\n".toList⟩, true, Except.ok ⟨200, "hello".toList⟩,
       true, true, true, true, fun _ => "beef".toList⟩
      defaultRegionName ⟨true, some "old".toList, some ['1'], none⟩ =
      (some (DLError.md5Mismatch (agentRemoteTarball defaultRegionName)),
       ⟨true, some "old".toList, some ['1'], none⟩) := by
  have h := C2_download_mismatch
    ⟨Except.ok ⟨200, "abc\n".toList⟩, true, Except.ok ⟨200, "hello".toList⟩,
     true, true, true, true, fun _ => "beef".toList⟩
    defaultRegionName ⟨true, some "old".toList, some ['1'], none⟩
    ⟨200, "abc\n".toList⟩ ⟨200, "hello".toList⟩
    rfl rfl rfl rfl rfl rfl rfl (by decide)
  simpa using h

/-- C5: when the checksums match but the rename fails, `DownloadAgent`
returns the rename error, the canonical artifact is unchanged, and — because
the final `return d.fs.Rename(...)` never assigns the local `err` the
deferred cleanup tests — the temp file is left in place with the streamed
bytes. -/
theorem C5_rename_failure (env : DownloadEnv) (region : List Char)
    (fs : FSState) (manifest tarball : HTTPResponse)
    (hmk : env.mkdirOk = true)
    (hmd5 : env.md5Response = Except.ok manifest)
    (hread : env.readAllOk = true)
    (htar : env.tarballResponse = Except.ok tarball)
    (hstatus : tarball.statusCode = 200)
    (htmp : env.tempFileOk = true)
    (hcopy : env.copyOk = true)
    (hren : env.renameOk = false)
    (hmatch : env.digest tarball.body = trimSpace manifest.body) :
    downloadAgent env region fs =
      (some DLError.renameFailed,
       { fs with cacheDirExists := true, temp := some tarball.body }) := by
  simp [downloadAgent, getPublishedMd5Sum, getPublishedTarball,
        hmk, hmd5, hread, htar, hstatus, htmp, hcopy, hren, hmatch]

/-- C5 witness: a concrete run with a failing rename. -/
theorem C5_rename_failure_witness :
    downloadAgent
      ⟨Except.ok ⟨200, "abc\n".toList⟩, true, Except.ok ⟨200, "hello".toList⟩,
       true, true, true, false, fun _ => "abc".toList⟩
      defaultRegionName ⟨true, some "old".toList, some ['1'], none⟩ =
      (some DLError.renameFailed,
       ⟨true, some "old".toList, some ['1'], some "hello".toList⟩) := by
  have h := C5_rename_failure
    ⟨Except.ok ⟨200, "abc\n".toList⟩, true, Except.ok ⟨200, "hello".toList⟩,
     true, true, true, false, fun _ => "abc".toList⟩
    defaultRegionName ⟨true, some "old".toList, some ['1'], none⟩
    ⟨200, "abc\n".toList⟩ ⟨200, "hello".toList⟩
    rfl rfl rfl rfl rfl rfl rfl rfl (by decide)
  simpa using h

/-- On every path, `DownloadAgent` leaves the state marker file exactly as it
was. -/
theorem downloadAgent_cacheState (env : DownloadEnv) (region : List Char)
    (fs : FSState) :
    (downloadAgent env region fs).2.cacheState = fs.cacheState := by
  unfold downloadAgent
  cases hmk : env.mkdirOk <;>
    simp only [Bool.not_eq_true, Bool.not_true, Bool.false_eq_true,
      if_true, if_false, Bool.not_false, ite_true, ite_false] <;>
  [skip; cases h1 : getPublishedMd5Sum env.md5Response env.readAllOk] <;>
  first
  | rfl
  | (cases h2 : getPublishedTarball env.tarballResponse <;>
     first
     | rfl
     | (cases htmp : env.tempFileOk <;>
        cases hcopy : env.copyOk <;>
        cases hren : env.renameOk <;>
        simp <;> split <;> rfl))

/-- C9: `DownloadAgent` never writes the state marker file — on every path it
leaves it exactly as it was — so after any run (including a successful one)
on a cache whose marker was absent or empty, `IsAgentCached` still answers
false; only `RecordCachedAgent` sets the marker, writing the single byte
`"1"` with owner-only permissions 0700. -/
theorem C9_marker_decoupled (env : DownloadEnv) (region : List Char)
    (fs : FSState) (hempty : fs.cacheState = none ∨ fs.cacheState = some []) :
    (downloadAgent env region fs).2.cacheState = fs.cacheState ∧
    isAgentCached (statOf (downloadAgent env region fs).2.cacheState)
      (statOf (downloadAgent env region fs).2.canonical) = false ∧
    recordCachedAgent fs = { fs with cacheState := some ['1'] } ∧
    recordCachedAgentCall = ⟨['1'], 0o700⟩ := by
  have h := downloadAgent_cacheState env region fs
  refine ⟨h, ?_, rfl, rfl⟩
  rcases hempty with h0 | h0 <;>
    simp [isAgentCached, fileNotEmpty, statOf, h, h0]

/-- C9 witness: a concrete successful download on a marker-less cache leaves
`IsAgentCached` false. -/
theorem C9_marker_decoupled_witness :
    (downloadAgent
        ⟨Except.ok ⟨200, "abc\n".toList⟩, true, Except.ok ⟨200, "hello".toList⟩,
         true, true, true, true, fun _ => "abc".toList⟩
        defaultRegionName ⟨false, some "old".toList, none, none⟩).2.cacheState
        = none ∧
    isAgentCached
      (statOf (downloadAgent
        ⟨Except.ok ⟨200, "abc\n".toList⟩, true, Except.ok ⟨200, "hello".toList⟩,
         true, true, true, true, fun _ => "abc".toList⟩
        defaultRegionName ⟨false, some "old".toList, none, none⟩).2.cacheState)
      (statOf (downloadAgent
        ⟨Except.ok ⟨200, "abc\n".toList⟩, true, Except.ok ⟨200, "hello".toList⟩,
         true, true, true, true, fun _ => "abc".toList⟩
        defaultRegionName ⟨false, some "old".toList, none, none⟩).2.canonical)
      = false := by
  have h := C9_marker_decoupled
    ⟨Except.ok ⟨200, "abc\n".toList⟩, true, Except.ok ⟨200, "hello".toList⟩,
     true, true, true, true, fun _ => "abc".toList⟩
    defaultRegionName ⟨false, some "old".toList, none, none⟩ (Or.inl rfl)
  exact ⟨h.1, h.2.1⟩

/-- C4: `IsAgentCached` answers true exactly when both the state marker stat
and the canonical artifact stat succeed with a size strictly greater than
zero; any stat error on either file yields false.  The operation is a total
boolean function — it has no failure outcome. -/
theorem C4_isAgentCached_iff (s t : Except Unit Int) :
    isAgentCached s t = true ↔
      (∃ n : Int, s = Except.ok n ∧ 0 < n) ∧
      (∃ m : Int, t = Except.ok m ∧ 0 < m) := by
  cases s <;> cases t <;>
    simp [isAgentCached, fileNotEmpty]

/-- C4 witness: concrete instances on both sides of the equivalence. -/
theorem C4_isAgentCached_iff_witness :
    isAgentCached (Except.ok 1) (Except.ok 2) = true ∧
    isAgentCached (Except.error ()) (Except.ok 2) = false ∧
    isAgentCached (Except.ok 0) (Except.ok 2) = false := by
  refine ⟨(C4_isAgentCached_iff (Except.ok 1) (Except.ok 2)).mpr
    ⟨⟨1, rfl, by decide⟩, ⟨2, rfl, by decide⟩⟩, by decide, by decide⟩

/-! ## Theorems about region resolution -/

/-- C6 counterexample: when the metadata capability "succeeds" with the empty
string, the first `getRegion` call stores `""`, so the second call invokes
the metadata capability again and can return a different string — the claim
that after any first resolution the capability is never invoked again is
false on the code (the memoization guard is `d.region != ""`). -/
theorem C6_counterexample :
    (getRegion ⟨[]⟩ (Except.ok [])).2.2 = true ∧
    (getRegion (getRegion ⟨[]⟩ (Except.ok [])).2.1 (Except.ok ['x'])).2.2
      = true ∧
    (getRegion (getRegion ⟨[]⟩ (Except.ok [])).2.1 (Except.ok ['x'])).1
      ≠ (getRegion ⟨[]⟩ (Except.ok [])).1 := by
  refine ⟨rfl, rfl, by decide⟩

/-- C6 (amended): after a `getRegion` call that returns a nonempty string —
which is every metadata success with a nonempty region and every fallback to
the (nonempty) default — subsequent calls on the same instance return the
identical string and do not invoke the metadata capability. -/
theorem C6_region_memoization (d : Downloader)
    (m₁ m₂ : Except Unit (List Char)) (h : (getRegion d m₁).1 ≠ []) :
    getRegion (getRegion d m₁).2.1 m₂ =
      ((getRegion d m₁).1, (getRegion d m₁).2.1, false) := by
  obtain ⟨r⟩ := d
  cases hr : r with
  | cons a t => subst hr; simp [getRegion]
  | nil =>
    subst hr
    cases m₁ with
    | ok v =>
      have hv : v ≠ [] := by simpa [getRegion] using h
      simp [getRegion, hv]
    | error e => simp [getRegion, defaultRegionName]

/-- C6 witness: after a fallback resolution (metadata error, default region
cached), a second call returns the same string without invoking metadata. -/
theorem C6_region_memoization_witness :
    getRegion (getRegion ⟨[]⟩ (Except.error ())).2.1
        (Except.ok "eu-west-1".toList) =
      ((getRegion ⟨[]⟩ (Except.error ())).1,
       (getRegion ⟨[]⟩ (Except.error ())).2.1, false) :=
  C6_region_memoization ⟨[]⟩ (Except.error ())
    (Except.ok "eu-west-1".toList) (by decide)

/-! ## Theorems about the checksum-manifest fetch -/

/-- C3 counterexample: a manifest request answered with HTTP 500 does not
make `DownloadAgent` fail — the response body is used as the expected
checksum and this run succeeds end to end, so "fails whenever the
checksum-manifest request returns a non-success HTTP status code" is false
on the code (`getPublishedMd5Sum` never inspects `resp.StatusCode`). -/
theorem C3_counterexample :
    (downloadAgent
      ⟨Except.ok ⟨500, "abc".toList⟩, true, Except.ok ⟨200, "hello".toList⟩,
       true, true, true, true, fun _ => "abc".toList⟩
      defaultRegionName ⟨false, none, none, none⟩).1 = none ∧
    (500 : Nat) ≠ 200 := by
  exact ⟨rfl, by decide⟩

/-- C3 (amended): `DownloadAgent` fails and propagates on a network/transport
error of the manifest request; the status code of the manifest response is never
inspected — its (trimmed) body is used as the expected checksum whatever the
status — while a non-success status on the artifact request does abort with
the distinct "unexpected response code" error. -/
theorem C3_manifest_failure_policy :
    (∀ (env : DownloadEnv) (region : List Char) (fs : FSState),
      env.mkdirOk = true → env.md5Response = Except.error () →
      (downloadAgent env region fs).1 = some DLError.manifestTransport) ∧
    (∀ resp : HTTPResponse,
      getPublishedMd5Sum (Except.ok resp) true
        = Except.ok (trimSpace resp.body)) ∧
    (∀ (env : DownloadEnv) (region : List Char) (fs : FSState)
       (manifest resp : HTTPResponse),
      env.mkdirOk = true → env.md5Response = Except.ok manifest →
      env.readAllOk = true → env.tarballResponse = Except.ok resp →
      resp.statusCode ≠ 200 →
      (downloadAgent env region fs).1
        = some (DLError.tarballStatus resp.statusCode)) := by
  refine ⟨?_, ?_, ?_⟩
  · intro env region fs hmk htrans
    simp [downloadAgent, getPublishedMd5Sum, hmk, htrans]
  · intro resp
    simp [getPublishedMd5Sum]
  · intro env region fs manifest resp hmk hmd5 hread htar hstatus
    simp [downloadAgent, getPublishedMd5Sum, getPublishedTarball,
          hmk, hmd5, hread, htar, hstatus]

/-- C3 witness: concrete instances of the three amended behaviours. -/
theorem C3_manifest_failure_policy_witness :
    (downloadAgent
      ⟨Except.error (), true, Except.ok ⟨200, []⟩, true, true, true, true,
       fun _ => []⟩ defaultRegionName ⟨false, none, none, none⟩).1
      = some DLError.manifestTransport ∧
    getPublishedMd5Sum (Except.ok ⟨500, " abc ".toList⟩) true
      = Except.ok "abc".toList ∧
    (downloadAgent
      ⟨Except.ok ⟨200, "abc".toList⟩, true, Except.ok ⟨404, []⟩, true, true,
       true, true, fun _ => []⟩ defaultRegionName
      ⟨false, none, none, none⟩).1 = some (DLError.tarballStatus 404) := by
  refine ⟨C3_manifest_failure_policy.1 _ defaultRegionName _ rfl rfl, ?_,
    C3_manifest_failure_policy.2.2 _ defaultRegionName _ ⟨200, "abc".toList⟩
      ⟨404, []⟩ rfl rfl rfl rfl (by decide)⟩
  have h := C3_manifest_failure_policy.2.1 ⟨500, " abc ".toList⟩
  simpa using h

/-! ## Theorems about desired-image resolution -/

/-- `ReadString('\n')` returns the whole input when the only newline is the
final one. -/
theorem takeThroughNewline_of_no_newline (s : List Char) (h : '\n' ∉ s) :
    takeThroughNewline (s ++ ['\n']) = s ++ ['\n'] := by
  induction s with
  | nil => rfl
  | cons c cs ih =>
    have hc : c ≠ '\n' := fun hc => h (hc ▸ List.mem_cons_self c cs)
    simp only [List.cons_append, takeThroughNewline, if_neg hc, List.append_eq]
    rw [ih (fun hm => h (List.mem_cons_of_mem c hm))]

/-- Appending the newline commutes with taking the suffix after the last
slash. -/
theorem afterLastSlash_append_newline (s : List Char) :
    afterLastSlash (s ++ ['\n']) = afterLastSlash s ++ ['\n'] := by
  simp [afterLastSlash, List.reverse_append, List.takeWhile_cons]

/-- Every character of `afterLastSlash s` is a character of `s`. -/
theorem mem_of_mem_afterLastSlash (s : List Char) (c : Char)
    (h : c ∈ afterLastSlash s) : c ∈ s := by
  rw [afterLastSlash, List.mem_reverse] at h
  have := (List.takeWhile_sublist (l := s.reverse)
    (fun c => c ≠ '/')).mem h
  simpa using this

/-- When `s` is nonempty and does not end in a separator, the suffix after
its last slash is nonempty. -/
theorem afterLastSlash_ne_nil (s : List Char) (hne : s ≠ [])
    (hsl : s.getLast? ≠ some '/') : afterLastSlash s ≠ [] := by
  obtain ⟨a, t, ht⟩ : ∃ a t, s.reverse = a :: t := by
    rcases hrev : s.reverse with _ | ⟨a, t⟩
    · exact absurd (List.reverse_eq_nil_iff.mp hrev) hne
    · exact ⟨a, t, rfl⟩
  have ha : a ≠ '/' := by
    intro hc
    apply hsl
    rw [List.getLast?_eq_head?_reverse, ht, hc]
    rfl
  rw [afterLastSlash, ht, List.takeWhile_cons_of_pos (by simpa using ha)]
  simp

/-- `Base` of a line ending in a newline: the trailing-slash stripping is a
no-op (the last character is the newline) and the newline stays part of the
returned base name. -/
theorem base_append_newline (s : List Char) :
    base (s ++ ['\n']) = afterLastSlash s ++ ['\n'] := by
  have h1 : stripTrailingSlashes (s ++ ['\n']) = s ++ ['\n'] := by
    simp [stripTrailingSlashes, List.reverse_append, List.dropWhile_cons]
  rw [base, if_neg (by simp), h1, afterLastSlash_append_newline,
    if_neg (by simp)]

/-- `Base` of a nonempty path not ending in a separator is the suffix after
its last slash. -/
theorem base_eq_afterLastSlash (s : List Char) (hne : s ≠ [])
    (hsl : s.getLast? ≠ some '/') : base s = afterLastSlash s := by
  obtain ⟨a, t, ht⟩ : ∃ a t, s.reverse = a :: t := by
    rcases hrev : s.reverse with _ | ⟨a, t⟩
    · exact absurd (List.reverse_eq_nil_iff.mp hrev) hne
    · exact ⟨a, t, rfl⟩
  have ha : a ≠ '/' := by
    intro hc
    apply hsl
    rw [List.getLast?_eq_head?_reverse, ht, hc]
    rfl
  have h1 : stripTrailingSlashes s = s := by
    rw [stripTrailingSlashes, ht, List.dropWhile_cons_of_neg (by simpa using ha),
      ← ht, List.reverse_reverse]
  rw [base, if_neg hne, h1, if_neg (afterLastSlash_ne_nil s hne hsl)]

/-- `TrimSpace` of the concatenated path trims exactly the trailing newline
when the joined base name is nonempty and whitespace-free and the cache
directory does not start with whitespace. -/
theorem trimSpace_join (cacheDir A : List Char)
    (hcd : ∀ c ∈ cacheDir.take 1, goIsSpace c = false)
    (hA : A ≠ []) (hAW : ∀ c ∈ A, goIsSpace c = false) :
    trimSpace (cacheDir ++ '/' :: (A ++ ['\n'])) = cacheDir ++ '/' :: A := by
  have hslash : goIsSpace '/' = false := by decide
  have hnl : goIsSpace '\n' = true := by decide
  have h1 : (cacheDir ++ '/' :: (A ++ ['\n'])).dropWhile goIsSpace
      = cacheDir ++ '/' :: (A ++ ['\n']) := by
    cases cacheDir with
    | nil => simp [List.dropWhile_cons, hslash]
    | cons c rest =>
      have hc : goIsSpace c = false := hcd c (by simp)
      simp [List.dropWhile_cons, hc]
  obtain ⟨a, t, ht⟩ : ∃ a t, A.reverse = a :: t := by
    rcases hrev : A.reverse with _ | ⟨a, t⟩
    · exact absurd (List.reverse_eq_nil_iff.mp hrev) hA
    · exact ⟨a, t, rfl⟩
  have ha : goIsSpace a = false := by
    apply hAW
    have : a ∈ A.reverse := ht ▸ List.mem_cons_self a t
    simpa using this
  rw [trimSpace, h1]
  have h2 : (cacheDir ++ '/' :: (A ++ ['\n'])).reverse
      = '\n' :: (A.reverse ++ '/' :: cacheDir.reverse) := by
    simp [List.reverse_append]
  rw [h2, List.dropWhile_cons_of_pos (by simpa using hnl), ht,
    List.cons_append, List.dropWhile_cons_of_neg (by simp [ha]), ← List.cons_append,
    ← ht]
  simp [List.reverse_append]

/-- C7 counterexample: the locator line `" a\n"` ends in a newline, but
resolution yields `"/var/cache/ecs/ a"` — the source applies `Base` before
any trimming and only trims the final concatenated path, so the leading
space survives, while the claimed "base name of the trimmed line content"
would be `"a"`, giving `"/var/cache/ecs/a"`. -/
theorem C7_counterexample :
    getDesiredImageFile "/var/cache/ecs".toList (some " a\n".toList)
      = Except.ok "/var/cache/ecs/ a".toList ∧
    "/var/cache/ecs/ a".toList
      ≠ "/var/cache/ecs".toList ++ '/' :: base (trimSpace " a\n".toList) := by
  exact ⟨rfl, by decide⟩

/-- Desired-image resolution on a well-behaved first line: when `s` is
nonempty, whitespace-free and does not end in a separator, the resolved path
is the cache directory joined with the base name of `s`. -/
theorem getDesiredImageFile_basename (cacheDir s : List Char)
    (hcd : ∀ c ∈ cacheDir.take 1, goIsSpace c = false)
    (hne : s ≠ [])
    (hnw : ∀ c ∈ s, goIsSpace c = false)
    (hsl : s.getLast? ≠ some '/') :
    getDesiredImageFile cacheDir (some (s ++ ['\n']))
      = Except.ok (cacheDir ++ '/' :: base s) := by
  have hnotin : '\n' ∉ s := fun hm => by
    have := hnw '\n' hm
    simp [goIsSpace] at this
  have hline : readStringNewline (s ++ ['\n']) = some (s ++ ['\n']) := by
    rw [readStringNewline, if_pos (by simp),
      takeThroughNewline_of_no_newline s hnotin]
  simp only [getDesiredImageFile, hline]
  rw [base_append_newline, base_eq_afterLastSlash s hne hsl]
  rw [trimSpace_join cacheDir (afterLastSlash s) hcd
    (afterLastSlash_ne_nil s hne hsl)
    (fun c hc => hnw c (mem_of_mem_afterLastSlash s c hc))]

/-- C7 (amended): for every locator file whose first line is `s` followed by
a newline, where `s` is nonempty, contains no whitespace character, and does
not end in a path separator (e.g. `"../../etc/myimage.tar"`), resolution
returns the cache directory joined with the base name of `s`, all directory
components discarded; for lines with interior/edge whitespace or a trailing
separator the Base-before-trim order of the source gives a different result. -/
theorem C7_resolution_basename (cacheDir s : List Char)
    (hcd : ∀ c ∈ cacheDir.take 1, goIsSpace c = false)
    (hne : s ≠ [])
    (hnw : ∀ c ∈ s, goIsSpace c = false)
    (hsl : s.getLast? ≠ some '/') :
    getDesiredImageFile cacheDir (some (s ++ ['\n']))
      = Except.ok (cacheDir ++ '/' :: base s) :=
  getDesiredImageFile_basename cacheDir s hcd hne hnw hsl

/-- C7 witness: the example given in the claim, `"../../etc/myimage.tar\n"`,
resolves to `<cacheDir>/myimage.tar`. -/
theorem C7_resolution_basename_witness :
    getDesiredImageFile "/var/cache/ecs".toList
        (some ("../../etc/myimage.tar".toList ++ ['\n']))
      = Except.ok "/var/cache/ecs/myimage.tar".toList := by
  have h := C7_resolution_basename "/var/cache/ecs".toList
    "../../etc/myimage.tar".toList (by decide) (by decide) (by decide)
    (by decide)
  simpa using h

/-- C8: desired-image resolution fails when the locator file cannot be
opened (no default fallback) and when its content holds no newline (empty
file, or a single line without a trailing newline); in both cases
`LoadDesiredAgent` propagates the resolution error and opens no artifact
file. -/
theorem C8_locator_errors :
    (∀ cacheDir : List Char,
      loadDesiredAgent cacheDir none = LoadAction.failed .openFailed) ∧
    (∀ (cacheDir content : List Char), '\n' ∉ content →
      loadDesiredAgent cacheDir (some content)
        = LoadAction.failed .noNewline) := by
  refine ⟨fun cacheDir => rfl, fun cacheDir content h => ?_⟩
  simp [loadDesiredAgent, getDesiredImageFile, readStringNewline, h]

/-- C8 witness: a missing locator, an empty locator, and a locator with no
trailing newline all fail, and `LoadDesiredAgent` performs no open. -/
theorem C8_locator_errors_witness :
    loadDesiredAgent "/var/cache/ecs".toList none
      = LoadAction.failed .openFailed ∧
    loadDesiredAgent "/var/cache/ecs".toList (some [])
      = LoadAction.failed .noNewline ∧
    loadDesiredAgent "/var/cache/ecs".toList (some "myimage.tar".toList)
      = LoadAction.failed .noNewline := by
  exact ⟨C8_locator_errors.1 _,
    C8_locator_errors.2 _ [] (by decide),
    C8_locator_errors.2 _ "myimage.tar".toList (by decide)⟩

/-- C10: a locator whose first line is `".."` followed by a newline resolves
successfully to the cache directory joined with `".."` — the base-name step
discards directory components but does not reject the special components
`"."` or `".."`. -/
theorem C10_dotdot_resolves (cacheDir : List Char)
    (hcd : ∀ c ∈ cacheDir.take 1, goIsSpace c = false) :
    getDesiredImageFile cacheDir (some "..\n".toList)
      = Except.ok (cacheDir ++ "/..".toList) := by
  have h := getDesiredImageFile_basename cacheDir "..".toList hcd (by decide)
    (by decide) (by decide)
  simpa using h

/-- C10 witness: the concrete cache directory. -/
theorem C10_dotdot_resolves_witness :
    getDesiredImageFile "/var/cache/ecs".toList (some "..\n".toList)
      = Except.ok "/var/cache/ecs/..".toList := by
  have h := C10_dotdot_resolves "/var/cache/ecs".toList (by decide)
  simpa using h

end EcsCache
